import Mathlib

/-
Verification development for the regclient image copy / export pipeline
(cli/layer.go: runLayerPull; regclient: ImageCopy, ImageExport).

Modelling conventions:
* Digests are strings; blob contents are byte lists (List Nat).
* The registry, the JSON codec, the decompressor and the digest algorithm
  are environment parameters (CopyEnv / ExportEnv / PullEnv), mirroring
  the external interfaces the Go code calls.
* Fallible Go calls return Except Err; a nil-pointer dereference is the
  distinguished constructor Outcome.panicked.
* File-system paths inside the export work directory are tracked relative
  to that directory, because archive.Tar emits entries relative to the
  directory it packages; the randomly named absolute work-directory path
  and the invocation wall-clock are explicit nondeterministic parameters
  of imageExport and are threaded through the pipeline (they feed the
  operation log of absolute paths touched, never the archive content).
* os.Rename onto an existing directory fails: the target, when it exists,
  already holds layer.tar and is therefore a non-empty directory, on
  which rename(2) returns ENOTEMPTY. The model reflects this in
  exportLayers (Err.renameTargetExists).
* ioutil.TempDir returns a fresh name, so the per-layer staging
  directory never collides with an existing digest-named directory; the
  staging name is left implicit and only the rename target matters.
-/

abbrev Digest := String

abbrev Bytes := List Nat

inductive Err where
  | notFound
  | renameTargetExists
  | msg (s : String)
deriving DecidableEq, Repr

instance {ε α : Type} [DecidableEq ε] [DecidableEq α] : DecidableEq (Except ε α) := fun a b =>
  match a, b with
  | .error x, .error y =>
    if h : x = y then isTrue (by rw [h]) else isFalse fun hc => h (by injection hc)
  | .error _, .ok _ => isFalse fun hc => Except.noConfusion hc
  | .ok _, .error _ => isFalse fun hc => Except.noConfusion hc
  | .ok x, .ok y =>
    if h : x = y then isTrue (by rw [h]) else isFalse fun hc => h (by injection hc)

/-- Blob descriptor inside a manifest (only the digest is consumed by the code under study). -/
structure Descriptor where
  digest : Digest
deriving DecidableEq, Repr

/-- Manifest view: GetConfigDigest and GetLayers, both fallible (layer.go lines 81, 103, 167, 211). -/
structure Manifest where
  configDigest : Except Err Digest
  layers : Except Err (List Descriptor)
deriving DecidableEq, Repr

/- ---------------------------------------------------------------------
   ImageCopy (layer.go lines 69-132)
   --------------------------------------------------------------------- -/

/-- Side effects of ImageCopy that are observable at the destination registry:
blob copies and the manifest push (attempted, whether or not they succeed). -/
inductive CpEvent where
  | copyBlob (d : Digest)
  | putManifest
deriving DecidableEq, Repr

/-- Environment of ImageCopy: ManifestGet on the source, BlobCopy per digest,
ManifestPut on the target. -/
structure CopyEnv where
  manifestGet : Except Err Manifest
  blobCopy : Digest → Except Err Unit
  manifestPut : Except Err Unit

/-- Loop of layer.go lines 107-120: copy each layer blob in manifest order,
returning the first error and the list of attempted copies. -/
def copyLayers (env : CopyEnv) : List Descriptor → Except Err Unit × List CpEvent
  | [] => (Except.ok (), [])
  | d :: rest =>
    match env.blobCopy d.digest with
    | .error e => (.error e, [CpEvent.copyBlob d.digest])
    | .ok _ => ((copyLayers env rest).1, CpEvent.copyBlob d.digest :: (copyLayers env rest).2)

/-- ImageCopy (layer.go lines 69-132): fetch the source manifest, copy the config
blob, copy every layer blob in manifest order, then push the manifest; any
failure returns immediately. The second component is the event trace. -/
def imageCopy (env : CopyEnv) : Except Err Unit × List CpEvent :=
  match env.manifestGet with
  | .error e => (.error e, [])
  | .ok m =>
    match m.configDigest with
    | .error e => (.error e, [])
    | .ok cd =>
      match env.blobCopy cd with
      | .error e => (.error e, [CpEvent.copyBlob cd])
      | .ok _ =>
        match m.layers with
        | .error e => (.error e, [CpEvent.copyBlob cd])
        | .ok l =>
          match copyLayers env l with
          | (.error e, evs) => (.error e, CpEvent.copyBlob cd :: evs)
          | (.ok _, evs) =>
            match env.manifestPut with
            | .error e => (.error e, CpEvent.copyBlob cd :: (evs ++ [CpEvent.putManifest]))
            | .ok _ => (.ok (), CpEvent.copyBlob cd :: (evs ++ [CpEvent.putManifest]))

def mCopyA : Manifest :=
  { configDigest := .ok "sha256:cfg", layers := .ok [⟨"sha256:l1"⟩, ⟨"sha256:l2"⟩] }

def envCopyA : CopyEnv :=
  { manifestGet := .ok mCopyA
    blobCopy := fun _ => .ok ()
    manifestPut := .ok () }

/- ---------------------------------------------------------------------
   runLayerPull (cli/layer.go lines 29-50)
   --------------------------------------------------------------------- -/

/-- Environment of the CLI layer-pull command: the result of parsing args[0]
with regclient.NewRef, the error component of BlobGet, and the error of
io.Copy from the returned stream to standard output. -/
structure PullEnv where
  newRef : Except Err Unit
  blobGetErr : Option Err
  copyErr : Option Err
deriving DecidableEq, Repr

/-- runLayerPull (cli/layer.go lines 29-50). The error returned by BlobGet
(line 41) is never inspected: the err variable is overwritten by the result of
io.Copy on line 44 without a check in between, so blobGetErr does not occur in
the body below, exactly as in the source. -/
def runLayerPull (env : PullEnv) : Except Err Unit :=
  match env.newRef with
  | .error e => .error e
  | .ok _ =>
    match env.copyErr with
    | some e => .error e
    | none => .ok ()

/- ---------------------------------------------------------------------
   ImageExport (layer.go lines 134-313)
   --------------------------------------------------------------------- -/

/-- Network accesses performed by ImageExport: the manifest fetch and the
blob fetches (config and layers). -/
inductive ExEvent where
  | manifestFetch
  | blobFetch (d : Digest)
deriving DecidableEq, Repr

/-- Result of a step of ImageExport: a value, a returned error, or a runtime
panic (nil-pointer dereference). -/
inductive Outcome (α : Type) where
  | ok (a : α)
  | error (e : Err)
  | panicked
deriving DecidableEq, Repr

/-- How much of the final tar stream reached the caller-supplied output
stream: nothing (the pipeline aborted before packaging), a possibly
truncated stream (io.Copy to the output failed partway), or the full
archive. -/
inductive Delivery where
  | nothing
  | truncated
  | full
deriving DecidableEq, Repr

/-- Decoded image configuration (ociv1.Image), restricted to the fields the
code reads or writes: Created (a nullable pointer, hence Option), the
RootFS.DiffIDs list, and an opaque remainder preserved by re-serialization. -/
structure Image where
  created : Option Int
  diffIDs : List Digest
  rest : Nat
deriving DecidableEq, Repr

/-- One entry of the legacy archive manifest (dockerTarManifest). -/
structure TarManifest where
  config : String
  repoTags : List String
  layers : List String
deriving DecidableEq, Repr

/-- Content of a fully staged export archive, paths relative to the work
directory: the config file name and bytes, the rebuilt DiffIDs, the archive
manifest layer paths, the RepoTags, the manifest.json bytes, the
digest-named layer directories with their layer.tar contents, and the
modification time stamped on layer and config files (the image creation
time; manifest.json gets the fixed epoch sentinel). -/
structure ArchiveOut where
  confName : String
  confBytes : Bytes
  diffIDs : List Digest
  tarLayers : List String
  repoTags : List String
  manifestBytes : Bytes
  layerDirs : List (String × Bytes)
  mtime : Int
deriving DecidableEq, Repr

/-- Environment of ImageExport: the resolved reference's common name, the
registry responses, outcomes of the fallible local operations, and the
deterministic codec/digest functions. -/
structure ExportEnv where
  commonName : String
  manifestGet : Except Err Manifest
  blobGet : Digest → Except Err Bytes
  tempDirErr : Option Err
  decodeConfig : Bytes → Except Err Image
  decompress : Bytes → Except Err Bytes
  hash : Bytes → Digest
  hex : Digest → String
  marshalImage : Image → Bytes
  marshalTarManifest : List TarManifest → Bytes
  tarErr : Option Err
  outErr : Option Err

/-- State of the per-layer loop (layer.go lines 215-270): digest-named
directories created so far (name and layer.tar content), the accumulated
archive-manifest layer paths and DiffIDs, the network events, and the log
of absolute paths touched (carrying the work-directory name). -/
structure LoopSt where
  dirs : List (String × Bytes)
  tarLayers : List String
  diffIDs : List Digest
  events : List ExEvent
  ops : List String
deriving DecidableEq, Repr

/-- Per-layer loop of ImageExport (layer.go lines 215-270). For each layer in
manifest order: fetch the blob, decompress it while digesting the
decompressed stream, rename the staging directory to the digest's hex name
(failing when that directory already exists, since it is non-empty), set the
layer.tar modification time to *conf.Created (a panic when Created is nil),
and append the layer path and the diff ID. -/
def exportLayers (env : ExportEnv) (created : Option Int) (tmp : String) :
    List Descriptor → LoopSt → LoopSt × Outcome Unit
  | [], st => (st, .ok ())
  | d :: rest, st =>
    match env.blobGet d.digest with
    | .error e => ({ st with events := st.events ++ [ExEvent.blobFetch d.digest] }, .error e)
    | .ok comp =>
      match env.decompress comp with
      | .error e => ({ st with events := st.events ++ [ExEvent.blobFetch d.digest] }, .error e)
      | .ok tb =>
        if env.hex (env.hash tb) ∈ st.dirs.map Prod.fst then
          ({ st with events := st.events ++ [ExEvent.blobFetch d.digest] }, .error .renameTargetExists)
        else
          match created with
          | none => ({ st with events := st.events ++ [ExEvent.blobFetch d.digest] }, .panicked)
          | some _ =>
            exportLayers env created tmp rest
              { dirs := st.dirs ++ [(env.hex (env.hash tb), tb)]
                tarLayers := st.tarLayers ++ [env.hex (env.hash tb) ++ "/layer.tar"]
                diffIDs := st.diffIDs ++ [env.hash tb]
                events := st.events ++ [ExEvent.blobFetch d.digest]
                ops := st.ops ++ [tmp ++ "/" ++ env.hex (env.hash tb),
                                  tmp ++ "/" ++ env.hex (env.hash tb) ++ "/layer.tar"] }

/-- Result of the part of ImageExport that runs once the work directory
exists (everything covered by the deferred removal). -/
structure PostRun where
  result : Outcome Unit
  warned : Bool
  events : List ExEvent
  ops : List String
  archive : Option ArchiveOut
  delivery : Delivery
deriving DecidableEq, Repr

/-- ImageExport after the work directory was created (layer.go lines 166-312):
config digest extraction, config blob download, digest comparison (warning
only, line 193-201), config decode, DiffIDs reset (line 209), the layer loop,
config re-serialization under its new digest name with Chtimes on
*conf.Created (a panic when Created is nil, line 284), manifest.json with the
epoch timestamp, archive.Tar of the work directory, and the final io.Copy to
the output stream whose error is assigned on line 310 but never returned:
line 312 returns nil, so a failed final copy still yields Outcome.ok. -/
def exportAfterTemp (env : ExportEnv) (tmp : String) (m : Manifest) : PostRun :=
  match m.configDigest with
  | .error e => ⟨.error e, false, [], [], none, .nothing⟩
  | .ok cd =>
    match env.blobGet cd with
    | .error e => ⟨.error e, false, [ExEvent.blobFetch cd], [], none, .nothing⟩
    | .ok confstr =>
      match env.decodeConfig confstr with
      | .error e =>
        ⟨.error e, if cd = env.hash confstr then false else true,
          [ExEvent.blobFetch cd], [], none, .nothing⟩
      | .ok conf0 =>
        match m.layers with
        | .error e =>
          ⟨.error e, if cd = env.hash confstr then false else true,
            [ExEvent.blobFetch cd], [], none, .nothing⟩
        | .ok l =>
          match exportLayers env ({ conf0 with diffIDs := [] } : Image).created tmp l
              ⟨[], [], [], [ExEvent.blobFetch cd], []⟩ with
          | (st, .error e) =>
            ⟨.error e, if cd = env.hash confstr then false else true,
              st.events, st.ops, none, .nothing⟩
          | (st, .panicked) =>
            ⟨.panicked, if cd = env.hash confstr then false else true,
              st.events, st.ops, none, .nothing⟩
          | (st, .ok _) =>
            match ({ conf0 with diffIDs := [] } : Image).created with
            | none =>
              ⟨.panicked, if cd = env.hash confstr then false else true,
                st.events, st.ops, none, .nothing⟩
            | some c =>
              ⟨match env.tarErr with
                | some e => .error e
                | none => .ok (),
               if cd = env.hash confstr then false else true,
               st.events,
               st.ops ++
                 [tmp ++ "/" ++
                    (env.hex (env.hash (env.marshalImage { conf0 with diffIDs := st.diffIDs })) ++ ".json"),
                  tmp ++ "/manifest.json"],
               match env.tarErr with
               | some _ => none
               | none =>
                 some
                   ⟨env.hex (env.hash (env.marshalImage { conf0 with diffIDs := st.diffIDs })) ++ ".json",
                    env.marshalImage { conf0 with diffIDs := st.diffIDs },
                    st.diffIDs,
                    st.tarLayers,
                    [env.commonName],
                    env.marshalTarManifest
                      [⟨env.hex (env.hash (env.marshalImage { conf0 with diffIDs := st.diffIDs })) ++ ".json",
                        [env.commonName], st.tarLayers⟩],
                    st.dirs,
                    c⟩,
               match env.tarErr with
               | some _ => .nothing
               | none =>
                 match env.outErr with
                 | some _ => .truncated
                 | none => .full⟩

/-- Result of one whole ImageExport call: the visible outcome plus whether the
deferred work-directory removal ran. -/
structure CoreRun where
  result : Outcome Unit
  cleanup : Bool
  warned : Bool
  events : List ExEvent
  archive : Option ArchiveOut
  delivery : Delivery
deriving DecidableEq, Repr

/-- ImageExport body (layer.go lines 134-313): the common-name precondition
check (lines 135-137, before any network access), the manifest fetch (line
142), creation of the work directory (line 152, its removal deferred on line
160 so every later exit path sets cleanup to true), then the staged pipeline. -/
def exportCore (env : ExportEnv) (tmp : String) : CoreRun :=
  if env.commonName = "" then ⟨.error .notFound, false, false, [], none, .nothing⟩
  else
    match env.manifestGet with
    | .error e => ⟨.error e, false, false, [ExEvent.manifestFetch], none, .nothing⟩
    | .ok m =>
      match env.tempDirErr with
      | some e => ⟨.error e, false, false, [ExEvent.manifestFetch], none, .nothing⟩
      | none =>
        ⟨(exportAfterTemp env tmp m).result, true, (exportAfterTemp env tmp m).warned,
         ExEvent.manifestFetch :: (exportAfterTemp env tmp m).events,
         (exportAfterTemp env tmp m).archive, (exportAfterTemp env tmp m).delivery⟩

/-- One ImageExport invocation together with its nondeterministic inputs: the
randomly named work directory returned by ioutil.TempDir and the wall clock
at invocation (never read by the code). -/
structure ExportRun where
  core : CoreRun
  tempPath : String
  startedAt : Int

/-- ImageExport, parameterized by the nondeterministic inputs. -/
def imageExport (env : ExportEnv) (tmp : String) (now : Int) : ExportRun :=
  ⟨exportCore env tmp, tmp, now⟩

/-- A layer blob was fetched and decompressed successfully, with decompressed
byte stream b. -/
def LayerFetch (env : ExportEnv) (d : Descriptor) (b : Bytes) : Prop :=
  ∃ c, env.blobGet d.digest = .ok c ∧ env.decompress c = .ok b

/- Concrete environments used by witnesses and counterexamples. -/

def mExp : Manifest := ⟨.ok "9-1", .ok [⟨"L1"⟩, ⟨"L2"⟩]⟩

def envA : ExportEnv :=
  { commonName := "example/repo:v1"
    manifestGet := .ok mExp
    blobGet := fun d => if d = "9-1" then .ok [9] else if d = "L1" then .ok [1] else .ok [2]
    tempDirErr := none
    decodeConfig := fun _ => .ok ⟨some 5, ["stale"], 3⟩
    decompress := fun b => .ok b
    hash := fun b => Nat.repr (b.headD 0) ++ "-" ++ Nat.repr b.length
    hex := fun d => d
    marshalImage := fun im => im.rest :: im.diffIDs.length :: []
    marshalTarManifest := fun ms => [ms.length]
    tarErr := none
    outErr := none }

def archA : ArchiveOut := ((exportCore envA "work").archive).getD ⟨"", [], [], [], [], [], [], 0⟩

def mC4 : Manifest := ⟨.ok "cfg-bad", .ok [⟨"L1"⟩, ⟨"L2"⟩]⟩

def envC4 : ExportEnv :=
  { envA with
    manifestGet := .ok mC4
    blobGet := fun d => if d = "cfg-bad" then .ok [9] else if d = "L1" then .ok [1] else .ok [2] }

def envC3 : ExportEnv := { envA with outErr := some (.msg "broken pipe") }

def envC5 : ExportEnv := { envA with decompress := fun _ => .ok [7] }

def envC7 : ExportEnv := { envA with decompress := fun _ => .error (.msg "invalid header") }

def envC8 : ExportEnv := { envA with commonName := "" }

def envC9 : ExportEnv := { envA with decodeConfig := fun _ => .ok ⟨none, ["stale"], 3⟩ }

lemma copyLayers_no_put (env : CopyEnv) :
    ∀ l : List Descriptor, CpEvent.putManifest ∉ (copyLayers env l).2 := by
  intro l
  induction l with
  | nil => simp [copyLayers]
  | cons d rest ih =>
    simp only [copyLayers]
    cases hbc : env.blobCopy d.digest with
    | error e => simp
    | ok u => simp [ih]

lemma copyLayers_ok (env : CopyEnv) :
    ∀ (l : List Descriptor) (evs : List CpEvent), copyLayers env l = (.ok (), evs) →
      (∀ d ∈ l, env.blobCopy d.digest = .ok ()) ∧
      evs = l.map fun d => CpEvent.copyBlob d.digest := by
  intro l
  induction l with
  | nil =>
    intro evs h
    simp only [copyLayers, Prod.mk.injEq] at h
    simp [h.2.symm]
  | cons d rest ih =>
    intro evs h
    simp only [copyLayers] at h
    cases hbc : env.blobCopy d.digest with
    | error e => rw [hbc] at h; simp at h
    | ok u =>
      rw [hbc] at h
      simp only [Prod.mk.injEq] at h
      rcases h with ⟨h1, h2⟩
      rcases hrest : copyLayers env rest with ⟨r2, evs2⟩
      rw [hrest] at h1 h2
      simp only at h1 h2
      subst h1
      rcases ih evs2 hrest with ⟨iha, ihb⟩
      refine ⟨?_, ?_⟩
      · intro x hx
        rcases List.mem_cons.mp hx with hx | hx
        · subst hx; cases u; exact hbc
        · exact iha x hx
      · simp [h2.symm, ihb]

/-- Claim C1: in ImageCopy, the manifest push is attempted only when fetching the
source manifest, extracting the config digest, copying the config blob, reading
the layer list and copying every layer blob (in manifest order) all succeeded;
the push is the last event of the trace, after the config copy and the layer
copies in manifest order. Contrapositively, if any of those steps fails, the
manifest is never pushed to the destination. -/
theorem imageCopy_put_only_after_all_copies (env : CopyEnv)
    (h : CpEvent.putManifest ∈ (imageCopy env).2) :
    ∃ m cd l, env.manifestGet = .ok m ∧ m.configDigest = .ok cd ∧
      env.blobCopy cd = .ok () ∧ m.layers = .ok l ∧
      (∀ d ∈ l, env.blobCopy d.digest = .ok ()) ∧
      (imageCopy env).2 =
        CpEvent.copyBlob cd :: ((l.map fun d => CpEvent.copyBlob d.digest) ++ [CpEvent.putManifest]) := by
  cases hmg : env.manifestGet with
  | error e => simp [imageCopy, hmg] at h
  | ok m =>
    cases hcd : m.configDigest with
    | error e => simp [imageCopy, hmg, hcd] at h
    | ok cd =>
      cases hbc : env.blobCopy cd with
      | error e => simp [imageCopy, hmg, hcd, hbc] at h
      | ok u =>
        cases hl : m.layers with
        | error e => simp [imageCopy, hmg, hcd, hbc, hl] at h
        | ok l =>
          rcases hcl : copyLayers env l with ⟨r, evs⟩
          cases r with
          | error e =>
            simp [imageCopy, hmg, hcd, hbc, hl, hcl] at h
            have := copyLayers_no_put env l
            rw [hcl] at this
            exact absurd h this
          | ok v =>
            rcases copyLayers_ok env l evs hcl with ⟨hall, hevs⟩
            cases u
            refine ⟨m, cd, l, rfl, hcd, hbc, hl, hall, ?_⟩
            cases hmp : env.manifestPut with
            | error e => simp [imageCopy, hmg, hcd, hbc, hl, hcl, hmp, hevs]
            | ok w => simp [imageCopy, hmg, hcd, hbc, hl, hcl, hmp, hevs]

/-- Witness for C1 at a concrete all-success environment. -/
theorem imageCopy_put_only_after_all_copies_witness :
    ∃ m cd l, envCopyA.manifestGet = .ok m ∧ m.configDigest = .ok cd ∧
      envCopyA.blobCopy cd = .ok () ∧ m.layers = .ok l ∧
      (∀ d ∈ l, envCopyA.blobCopy d.digest = .ok ()) ∧
      (imageCopy envCopyA).2 =
        CpEvent.copyBlob cd :: ((l.map fun d => CpEvent.copyBlob d.digest) ++ [CpEvent.putManifest]) :=
  imageCopy_put_only_after_all_copies envCopyA (by decide)

/-- Claim C10: runLayerPull ignores the BlobGet error: its result is unchanged
under any change of that error, equals ok when parsing and the stdout copy
succeed (even though the blob fetch may have failed), and otherwise is exactly
the reference-parse error or the stream-copy error. -/
theorem runLayerPull_discards_blobget_error :
    ∀ (r : Except Err Unit) (b₁ b₂ c : Option Err),
      runLayerPull ⟨r, b₁, c⟩ = runLayerPull ⟨r, b₂, c⟩ ∧
      runLayerPull ⟨Except.ok (), b₁, none⟩ = Except.ok () ∧
      (∀ e, runLayerPull ⟨Except.ok (), b₁, some e⟩ = Except.error e) ∧
      (∀ e, runLayerPull ⟨Except.error e, b₁, c⟩ = Except.error e) := by
  intro r b₁ b₂ c
  exact ⟨rfl, rfl, fun e => rfl, fun e => rfl⟩

lemma exportLayers_ok (env : ExportEnv) (cr : Option Int) (tmp : String) :
    ∀ (l : List Descriptor) (st st' : LoopSt),
      exportLayers env cr tmp l st = (st', .ok ()) →
      ∃ bs : List Bytes, List.Forall₂ (LayerFetch env) l bs ∧
        st'.dirs = st.dirs ++ bs.map (fun b => (env.hex (env.hash b), b)) ∧
        st'.tarLayers = st.tarLayers ++ bs.map (fun b => env.hex (env.hash b) ++ "/layer.tar") ∧
        st'.diffIDs = st.diffIDs ++ bs.map env.hash := by
  intro l
  induction l with
  | nil =>
    intro st st' h
    simp only [exportLayers, Prod.mk.injEq] at h
    refine ⟨[], List.Forall₂.nil, ?_, ?_, ?_⟩ <;> simp [h.1.symm]
  | cons d rest ih =>
    intro st st' h
    cases hbg : env.blobGet d.digest with
    | error e => simp [exportLayers, hbg] at h
    | ok comp =>
      cases hdc : env.decompress comp with
      | error e => simp [exportLayers, hbg, hdc] at h
      | ok tb =>
        by_cases hmem : env.hex (env.hash tb) ∈ st.dirs.map Prod.fst
        · simp [exportLayers, hbg, hdc, hmem] at h
        · cases cr with
          | none => simp [exportLayers, hbg, hdc, hmem] at h
          | some c =>
            simp only [exportLayers, hbg, hdc, if_neg hmem] at h
            rcases ih _ _ h with ⟨bs, hf, hd, htl, hdi⟩
            refine ⟨tb :: bs, List.Forall₂.cons ⟨comp, hbg, hdc⟩ hf, ?_, ?_, ?_⟩
            · rw [hd]; simp [List.append_assoc]
            · rw [htl]; simp [List.append_assoc]
            · rw [hdi]; simp [List.append_assoc]

lemma exportLayers_ok_nodup (env : ExportEnv) (cr : Option Int) (tmp : String) :
    ∀ (l : List Descriptor) (st st' : LoopSt),
      exportLayers env cr tmp l st = (st', .ok ()) →
      (st.dirs.map Prod.fst).Nodup → (st'.dirs.map Prod.fst).Nodup := by
  intro l
  induction l with
  | nil =>
    intro st st' h hnd
    simp only [exportLayers, Prod.mk.injEq] at h
    rw [← h.1]; exact hnd
  | cons d rest ih =>
    intro st st' h hnd
    cases hbg : env.blobGet d.digest with
    | error e => simp [exportLayers, hbg] at h
    | ok comp =>
      cases hdc : env.decompress comp with
      | error e => simp [exportLayers, hbg, hdc] at h
      | ok tb =>
        by_cases hmem : env.hex (env.hash tb) ∈ st.dirs.map Prod.fst
        · simp [exportLayers, hbg, hdc, hmem] at h
        · cases cr with
          | none => simp [exportLayers, hbg, hdc, hmem] at h
          | some c =>
            simp only [exportLayers, hbg, hdc, if_neg hmem] at h
            refine ih _ _ h ?_
            simp only [List.map_append, List.map_cons, List.map_nil]
            rw [List.nodup_append]
            exact ⟨hnd, List.nodup_singleton _, by simpa using hmem⟩

lemma exportLayers_complete (env : ExportEnv) (tmp : String) (c : Int) :
    ∀ {l : List Descriptor} {bs : List Bytes},
      List.Forall₂ (LayerFetch env) l bs →
      ∀ st : LoopSt,
      (st.dirs.map Prod.fst ++ bs.map fun b => env.hex (env.hash b)).Nodup →
      ∃ st', exportLayers env (some c) tmp l st = (st', .ok ()) := by
  intro l bs hf
  induction hf with
  | nil => intro st hnd; exact ⟨st, rfl⟩
  | @cons d b l1 bs1 hdb hrest ih =>
    intro st hnd
    rcases hdb with ⟨comp, hbg, hdc⟩
    have hmem : env.hex (env.hash b) ∉ st.dirs.map Prod.fst := by
      rw [List.map_cons, List.nodup_append] at hnd
      intro hin
      exact hnd.2.2 hin (List.mem_cons_self _ _)
    have hnd2 : (((st.dirs ++ [(env.hex (env.hash b), b)]).map Prod.fst) ++
        bs1.map fun x => env.hex (env.hash x)).Nodup := by
      simp only [List.map_append, List.map_cons, List.map_nil]
      simpa [List.append_assoc] using hnd
    simp only [exportLayers, hbg, hdc, if_neg hmem]
    exact ih _ hnd2

lemma exportLayers_indep (env : ExportEnv) (cr : Option Int) (t₁ t₂ : String) :
    ∀ (l : List Descriptor) (st₁ st₂ : LoopSt),
      st₁.dirs = st₂.dirs → st₁.tarLayers = st₂.tarLayers →
      st₁.diffIDs = st₂.diffIDs → st₁.events = st₂.events →
      (exportLayers env cr t₁ l st₁).2 = (exportLayers env cr t₂ l st₂).2 ∧
      (exportLayers env cr t₁ l st₁).1.dirs = (exportLayers env cr t₂ l st₂).1.dirs ∧
      (exportLayers env cr t₁ l st₁).1.tarLayers = (exportLayers env cr t₂ l st₂).1.tarLayers ∧
      (exportLayers env cr t₁ l st₁).1.diffIDs = (exportLayers env cr t₂ l st₂).1.diffIDs ∧
      (exportLayers env cr t₁ l st₁).1.events = (exportLayers env cr t₂ l st₂).1.events := by
  intro l
  induction l with
  | nil =>
    intro st₁ st₂ h1 h2 h3 h4
    simp [exportLayers, h1, h2, h3, h4]
  | cons d rest ih =>
    intro st₁ st₂ h1 h2 h3 h4
    cases hbg : env.blobGet d.digest with
    | error e => simp [exportLayers, hbg, h1, h2, h3, h4]
    | ok comp =>
      cases hdc : env.decompress comp with
      | error e => simp [exportLayers, hbg, hdc, h1, h2, h3, h4]
      | ok tb =>
        by_cases hmem : env.hex (env.hash tb) ∈ st₁.dirs.map Prod.fst
        · have hmem2 : env.hex (env.hash tb) ∈ st₂.dirs.map Prod.fst := h1 ▸ hmem
          simp [exportLayers, hbg, hdc, hmem, hmem2, h1, h2, h3, h4]
        · have hmem2 : env.hex (env.hash tb) ∉ st₂.dirs.map Prod.fst := h1 ▸ hmem
          cases cr with
          | none => simp [exportLayers, hbg, hdc, hmem, hmem2, h1, h2, h3, h4]
          | some c =>
            simp only [exportLayers, hbg, hdc, if_neg hmem, if_neg hmem2]
            exact ih _ _ (by simp [h1]) (by simp [h2]) (by simp [h3]) (by simp [h4])

lemma exportAfterTemp_inv (env : ExportEnv) (tmp : String) (m : Manifest) (a : ArchiveOut)
    (h : (exportAfterTemp env tmp m).archive = some a) :
    ∃ cd confstr conf0 l st c,
      m.configDigest = .ok cd ∧ env.blobGet cd = .ok confstr ∧
      env.decodeConfig confstr = .ok conf0 ∧ m.layers = .ok l ∧
      exportLayers env conf0.created tmp l ⟨[], [], [], [ExEvent.blobFetch cd], []⟩ = (st, .ok ()) ∧
      conf0.created = some c ∧ env.tarErr = none ∧
      a.diffIDs = st.diffIDs ∧ a.tarLayers = st.tarLayers ∧ a.layerDirs = st.dirs := by
  cases hcd : m.configDigest with
  | error e => simp [exportAfterTemp, hcd] at h
  | ok cd =>
    cases hbg : env.blobGet cd with
    | error e => simp [exportAfterTemp, hcd, hbg] at h
    | ok confstr =>
      cases hdec : env.decodeConfig confstr with
      | error e => simp [exportAfterTemp, hcd, hbg, hdec] at h
      | ok conf0 =>
        cases hl : m.layers with
        | error e => simp [exportAfterTemp, hcd, hbg, hdec, hl] at h
        | ok l =>
          rcases hL : exportLayers env conf0.created tmp l ⟨[], [], [], [ExEvent.blobFetch cd], []⟩
            with ⟨st, r⟩
          cases r with
          | error e => simp [exportAfterTemp, hcd, hbg, hdec, hl, hL] at h
          | panicked => simp [exportAfterTemp, hcd, hbg, hdec, hl, hL] at h
          | ok v =>
            cases v
            cases hcr : conf0.created with
            | none =>
              have hL2 := hL
              rw [hcr] at hL2
              simp [exportAfterTemp, hcd, hbg, hdec, hl, hcr, hL2] at h
            | some c =>
              have hL2 := hL
              rw [hcr] at hL2
              cases htar : env.tarErr with
              | some e => simp [exportAfterTemp, hcd, hbg, hdec, hl, hcr, hL2, htar] at h
              | none =>
                simp only [exportAfterTemp, hcd, hbg, hdec, hl, hcr, hL2, htar,
                  Option.some.injEq] at h
                subst h
                exact ⟨cd, confstr, conf0, l, st, c, rfl, hbg, hdec, rfl, hL, hcr, rfl,
                  rfl, rfl, rfl⟩

lemma exportAfterTemp_ok_char (env : ExportEnv) (tmp : String) (m : Manifest)
    (cd : Digest) (confstr : Bytes) (conf0 : Image) (c : Int)
    (l : List Descriptor) (bs : List Bytes)
    (hcd : m.configDigest = .ok cd) (hbg : env.blobGet cd = .ok confstr)
    (hdec : env.decodeConfig confstr = .ok conf0) (hcr : conf0.created = some c)
    (hl : m.layers = .ok l)
    (hf : List.Forall₂ (LayerFetch env) l bs)
    (hnd : (bs.map fun b => env.hex (env.hash b)).Nodup)
    (htar : env.tarErr = none) :
    (exportAfterTemp env tmp m).result = .ok () ∧
    (exportAfterTemp env tmp m).warned = (if cd = env.hash confstr then false else true) := by
  obtain ⟨st, hL⟩ :=
    exportLayers_complete env tmp c hf ⟨[], [], [], [ExEvent.blobFetch cd], []⟩ (by simpa using hnd)
  constructor
  · simp [exportAfterTemp, hcd, hbg, hdec, hl, hcr, hL, htar]
  · simp [exportAfterTemp, hcd, hbg, hdec, hl, hcr, hL, htar]

lemma exportAfterTemp_indep (env : ExportEnv) (t₁ t₂ : String) (m : Manifest) :
    (exportAfterTemp env t₁ m).result = (exportAfterTemp env t₂ m).result ∧
    (exportAfterTemp env t₁ m).warned = (exportAfterTemp env t₂ m).warned ∧
    (exportAfterTemp env t₁ m).events = (exportAfterTemp env t₂ m).events ∧
    (exportAfterTemp env t₁ m).archive = (exportAfterTemp env t₂ m).archive ∧
    (exportAfterTemp env t₁ m).delivery = (exportAfterTemp env t₂ m).delivery := by
  cases hcd : m.configDigest with
  | error e => simp [exportAfterTemp, hcd]
  | ok cd =>
    cases hbg : env.blobGet cd with
    | error e => simp [exportAfterTemp, hcd, hbg]
    | ok confstr =>
      cases hdec : env.decodeConfig confstr with
      | error e => simp [exportAfterTemp, hcd, hbg, hdec]
      | ok conf0 =>
        cases hl : m.layers with
        | error e => simp [exportAfterTemp, hcd, hbg, hdec, hl]
        | ok l =>
          have hind := exportLayers_indep env conf0.created t₁ t₂ l
            ⟨[], [], [], [ExEvent.blobFetch cd], []⟩ ⟨[], [], [], [ExEvent.blobFetch cd], []⟩
            rfl rfl rfl rfl
          rcases hL1 : exportLayers env conf0.created t₁ l ⟨[], [], [], [ExEvent.blobFetch cd], []⟩
            with ⟨st1, r1⟩
          rcases hL2 : exportLayers env conf0.created t₂ l ⟨[], [], [], [ExEvent.blobFetch cd], []⟩
            with ⟨st2, r2⟩
          rw [hL1, hL2] at hind
          obtain ⟨hr, hdir, htl2, hdi2, hev2⟩ := hind
          simp only at hr hdir htl2 hdi2 hev2
          subst hr
          cases r1 with
          | error e => simp [exportAfterTemp, hcd, hbg, hdec, hl, hL1, hL2, hev2]
          | panicked => simp [exportAfterTemp, hcd, hbg, hdec, hl, hL1, hL2, hev2]
          | ok v =>
            cases hcr : conf0.created with
            | none =>
              rw [hcr] at hL1 hL2
              simp [exportAfterTemp, hcd, hbg, hdec, hl, hL1, hL2, hcr, hev2]
            | some c =>
              rw [hcr] at hL1 hL2
              simp [exportAfterTemp, hcd, hbg, hdec, hl, hL1, hL2, hcr,
                hdir, htl2, hdi2, hev2]

lemma exportCore_tempdir (env : ExportEnv) (tmp : String) (m : Manifest)
    (hname : ¬ env.commonName = "") (hm : env.manifestGet = .ok m)
    (ht : env.tempDirErr = none) :
    exportCore env tmp =
      ⟨(exportAfterTemp env tmp m).result, true, (exportAfterTemp env tmp m).warned,
       ExEvent.manifestFetch :: (exportAfterTemp env tmp m).events,
       (exportAfterTemp env tmp m).archive, (exportAfterTemp env tmp m).delivery⟩ := by
  simp [exportCore, hname, hm, ht]

lemma exportCore_archive_inv (env : ExportEnv) (tmp : String) (a : ArchiveOut)
    (h : (exportCore env tmp).archive = some a) :
    ¬ env.commonName = "" ∧ env.tempDirErr = none ∧
    ∃ m, env.manifestGet = .ok m ∧ (exportAfterTemp env tmp m).archive = some a := by
  by_cases hname : env.commonName = ""
  · simp [exportCore, hname] at h
  · cases hm : env.manifestGet with
    | error e => simp [exportCore, hname, hm] at h
    | ok m =>
      cases ht : env.tempDirErr with
      | some e => simp [exportCore, hname, hm, ht] at h
      | none =>
        simp only [exportCore, if_neg hname, hm, ht] at h
        exact ⟨hname, rfl, m, rfl, h⟩

/-- Claim C2: a successful export (one that staged a full archive) rebuilds the
configuration DiffIDs as exactly one digest per manifest layer, each the
canonical digest of that layer's decompressed byte stream, and the archive
manifest layer list as the matching diffid-hex/layer.tar paths, both in the
source manifest's layer order. -/
theorem imageExport_diffids_layers (env : ExportEnv) (tmp : String) (now : Int) (a : ArchiveOut)
    (h : (imageExport env tmp now).core.archive = some a) :
    ∃ m l bs, env.manifestGet = .ok m ∧ m.layers = .ok l ∧
      List.Forall₂ (LayerFetch env) l bs ∧
      a.diffIDs = bs.map env.hash ∧
      a.tarLayers = bs.map (fun b => env.hex (env.hash b) ++ "/layer.tar") ∧
      a.diffIDs.length = l.length ∧ a.tarLayers.length = l.length := by
  have h' : (exportCore env tmp).archive = some a := h
  rcases exportCore_archive_inv env tmp a h' with ⟨hname, ht, m, hm, hpost⟩
  rcases exportAfterTemp_inv env tmp m a hpost with
    ⟨cd, confstr, conf0, l, st, c, hcd, hbg, hdec, hl, hL, hcr, htar, hdi, htl, hdirs⟩
  rcases exportLayers_ok env conf0.created tmp l _ _ hL with ⟨bs, hf, hsd, hstl, hsdi⟩
  refine ⟨m, l, bs, hm, hl, hf, ?_, ?_, ?_, ?_⟩
  · rw [hdi, hsdi]; simp
  · rw [htl, hstl]; simp
  · rw [hdi, hsdi]; simp [hf.length_eq]
  · rw [htl, hstl]; simp [hf.length_eq]

/-- Witness for C2 at a concrete two-layer environment. -/
theorem imageExport_diffids_layers_witness :
    ∃ (m : Manifest) (l : List Descriptor) (bs : List Bytes),
      envA.manifestGet = .ok m ∧ m.layers = .ok l ∧
      List.Forall₂ (LayerFetch envA) l bs ∧
      archA.diffIDs = bs.map envA.hash ∧
      archA.tarLayers = bs.map (fun b => envA.hex (envA.hash b) ++ "/layer.tar") ∧
      archA.diffIDs.length = l.length ∧ archA.tarLayers.length = l.length :=
  imageExport_diffids_layers envA "work" 0 archA (by decide)

/-- Claim C5, corrected: each per-layer staging directory is renamed to the hex
encoding of the computed diff ID, but the rename succeeds only when no earlier
layer produced the same name: on success the layer directory names are exactly
the hex diff IDs in manifest order and are pairwise distinct. Two layers with
identical decompressed content therefore cannot both be renamed; the
counterexample shows the second rename failing and aborting the export. -/
theorem imageExport_layer_dirs_distinct (env : ExportEnv) (tmp : String) (now : Int)
    (a : ArchiveOut) (h : (imageExport env tmp now).core.archive = some a) :
    ∃ bs : List Bytes, a.layerDirs = bs.map (fun b => (env.hex (env.hash b), b)) ∧
      a.layerDirs.map Prod.fst = a.diffIDs.map env.hex ∧
      (a.layerDirs.map Prod.fst).Nodup := by
  have h' : (exportCore env tmp).archive = some a := h
  rcases exportCore_archive_inv env tmp a h' with ⟨hname, ht, m, hm, hpost⟩
  rcases exportAfterTemp_inv env tmp m a hpost with
    ⟨cd, confstr, conf0, l, st, c, hcd, hbg, hdec, hl, hL, hcr, htar, hdi, htl, hdirs⟩
  rcases exportLayers_ok env conf0.created tmp l _ _ hL with ⟨bs, hf, hsd, hstl, hsdi⟩
  have hnd := exportLayers_ok_nodup env conf0.created tmp l _ _ hL (by simp)
  refine ⟨bs, ?_, ?_, ?_⟩
  · rw [hdirs, hsd]; simp
  · rw [hdirs, hdi, hsd, hsdi]; simp [List.map_map, Function.comp]
  · rw [hdirs]; exact hnd

/-- Witness for the corrected C5 at a concrete two-layer environment. -/
theorem imageExport_layer_dirs_distinct_witness :
    ∃ bs : List Bytes, archA.layerDirs = bs.map (fun b => (envA.hex (envA.hash b), b)) ∧
      archA.layerDirs.map Prod.fst = archA.diffIDs.map envA.hex ∧
      (archA.layerDirs.map Prod.fst).Nodup :=
  imageExport_layer_dirs_distinct envA "work" 0 archA (by decide)

/-- Counterexample to C5 as stated: two distinct layer descriptors whose blobs
decompress to identical content map to the same digest-derived directory name;
the second os.Rename then hits an existing non-empty directory and fails, so
the export aborts instead of deduplicating. -/
theorem imageExport_identical_layers_collision :
    envC5.decompress [1] = .ok [7] ∧ envC5.decompress [2] = .ok [7] ∧
    (imageExport envC5 "work" 0).core.result = Outcome.error Err.renameTargetExists ∧
    (imageExport envC5 "work" 0).core.archive = none := by decide

/-- Claim C3 (code bug evaluation): with every staging step succeeding and the
final io.Copy to the output stream failing, ImageExport still returns nil
(layer.go line 310 assigns the copy error, line 312 returns nil), and a
truncated archive may have reached the output stream. -/
theorem imageExport_swallows_output_copy_error :
    envC3.outErr = some (Err.msg "broken pipe") ∧
    (imageExport envC3 "work" 0).core.result = Outcome.ok () ∧
    (imageExport envC3 "work" 0).core.delivery = Delivery.truncated := by decide

/-- Claim C4: when the downloaded config bytes hash to a digest different from
the descriptor's declared digest, ImageExport emits a warning and proceeds;
absent other failures the export completes successfully. -/
theorem imageExport_config_mismatch_warns (env : ExportEnv) (tmp : String) (now : Int)
    (m : Manifest) (cd : Digest) (confstr : Bytes) (conf0 : Image) (c : Int)
    (l : List Descriptor) (bs : List Bytes)
    (hname : ¬ env.commonName = "") (hm : env.manifestGet = .ok m)
    (ht : env.tempDirErr = none) (hcd : m.configDigest = .ok cd)
    (hbg : env.blobGet cd = .ok confstr) (hmis : cd ≠ env.hash confstr)
    (hdec : env.decodeConfig confstr = .ok conf0) (hcr : conf0.created = some c)
    (hl : m.layers = .ok l) (hf : List.Forall₂ (LayerFetch env) l bs)
    (hnd : (bs.map fun b => env.hex (env.hash b)).Nodup)
    (htar : env.tarErr = none) :
    (imageExport env tmp now).core.warned = true ∧
    (imageExport env tmp now).core.result = Outcome.ok () := by
  obtain ⟨hres, hwar⟩ := exportAfterTemp_ok_char env tmp m cd confstr conf0 c l bs
    hcd hbg hdec hcr hl hf hnd htar
  have hpl := exportCore_tempdir env tmp m hname hm ht
  constructor
  · show (exportCore env tmp).warned = true
    rw [hpl]
    show (exportAfterTemp env tmp m).warned = true
    rw [hwar, if_neg hmis]
  · show (exportCore env tmp).result = Outcome.ok ()
    rw [hpl]
    exact hres

/-- Witness for C4 at a concrete environment whose config digest mismatches. -/
theorem imageExport_config_mismatch_warns_witness :
    (imageExport envC4 "work" 0).core.warned = true ∧
    (imageExport envC4 "work" 0).core.result = Outcome.ok () :=
  imageExport_config_mismatch_warns envC4 "work" 0 mC4 "cfg-bad" [9] ⟨some 5, ["stale"], 3⟩ 5
    [⟨"L1"⟩, ⟨"L2"⟩] [[1], [2]] (by decide) rfl rfl rfl (by decide) (by decide) rfl rfl rfl
    (List.Forall₂.cons ⟨[1], by decide, by decide⟩
      (List.Forall₂.cons ⟨[2], by decide, by decide⟩ List.Forall₂.nil))
    (by decide) rfl

/-- Claim C6: the whole observable outcome of ImageExport, in particular the
archive content (config digest and bytes, DiffIDs, manifest.json bytes, layer
directories), is a function of the registry responses and codecs alone: the
randomly named work directory and the invocation wall-clock never leak into
it. -/
theorem imageExport_deterministic (env : ExportEnv) (t₁ t₂ : String) (n₁ n₂ : Int) :
    (imageExport env t₁ n₁).core.result = (imageExport env t₂ n₂).core.result ∧
    (imageExport env t₁ n₁).core.warned = (imageExport env t₂ n₂).core.warned ∧
    (imageExport env t₁ n₁).core.archive = (imageExport env t₂ n₂).core.archive ∧
    (imageExport env t₁ n₁).core.delivery = (imageExport env t₂ n₂).core.delivery := by
  by_cases hname : env.commonName = ""
  · simp [imageExport, exportCore, hname]
  · cases hm : env.manifestGet with
    | error e => simp [imageExport, exportCore, hname, hm]
    | ok m =>
      cases ht : env.tempDirErr with
      | some e => simp [imageExport, exportCore, hname, hm, ht]
      | none =>
        rcases exportAfterTemp_indep env t₁ t₂ m with ⟨p1, p2, p3, p4, p5⟩
        simp [imageExport, exportCore, hname, hm, ht, p1, p2, p3, p4, p5]

/-- Claim C7: once the work directory was created (common name non-empty,
manifest fetched, TempDir succeeded), the deferred removal runs on every exit
path of the pipeline, however far it progressed. -/
theorem imageExport_cleanup_guaranteed (env : ExportEnv) (tmp : String) (now : Int)
    (m : Manifest) (hname : ¬ env.commonName = "") (hm : env.manifestGet = .ok m)
    (ht : env.tempDirErr = none) :
    (imageExport env tmp now).core.cleanup = true := by
  have hpl := exportCore_tempdir env tmp m hname hm ht
  show (exportCore env tmp).cleanup = true
  rw [hpl]

/-- Witness for C7 at a concrete environment whose first layer decompression
fails: the run errors, yet cleanup still happened. -/
theorem imageExport_cleanup_guaranteed_witness :
    (imageExport envC7 "work" 0).core.cleanup = true :=
  imageExport_cleanup_guaranteed envC7 "work" 0 mExp (by decide) rfl rfl

/-- Claim C8: an empty common name makes ImageExport return ErrNotFound before
any network access: no manifest fetch and no blob fetch appears in the event
trace. -/
theorem imageExport_empty_name_no_fetch (env : ExportEnv) (tmp : String) (now : Int)
    (hname : env.commonName = "") :
    (imageExport env tmp now).core.result = Outcome.error Err.notFound ∧
    (imageExport env tmp now).core.events = [] := by
  refine ⟨?_, ?_⟩ <;> simp [imageExport, exportCore, hname]

/-- Witness for C8. -/
theorem imageExport_empty_name_no_fetch_witness :
    (imageExport envC8 "work" 0).core.result = Outcome.error Err.notFound ∧
    (imageExport envC8 "work" 0).core.events = [] :=
  imageExport_empty_name_no_fetch envC8 "work" 0 rfl

/-- Claim C9: when the decoded configuration carries no creation timestamp
(Created is nil) and the manifest has at least one layer whose fetch and
decompression succeed, ImageExport dereferences the nil pointer at the
os.Chtimes call (layer.go line 265) and panics instead of returning an
error. -/
theorem imageExport_nil_created_panics (env : ExportEnv) (tmp : String) (now : Int)
    (m : Manifest) (cd : Digest) (confstr : Bytes) (conf0 : Image)
    (d : Descriptor) (rest : List Descriptor) (b : Bytes)
    (hname : ¬ env.commonName = "") (hm : env.manifestGet = .ok m)
    (ht : env.tempDirErr = none) (hcd : m.configDigest = .ok cd)
    (hbg : env.blobGet cd = .ok confstr) (hdec : env.decodeConfig confstr = .ok conf0)
    (hcr : conf0.created = none) (hl : m.layers = .ok (d :: rest))
    (hlf : LayerFetch env d b) :
    (imageExport env tmp now).core.result = Outcome.panicked := by
  rcases hlf with ⟨comp, hbg2, hdc2⟩
  show (exportCore env tmp).result = Outcome.panicked
  rw [exportCore_tempdir env tmp m hname hm ht]
  simp [exportAfterTemp, exportLayers, hcd, hbg, hdec, hcr, hl, hbg2, hdc2]

/-- Witness for C9. -/
theorem imageExport_nil_created_panics_witness :
    (imageExport envC9 "work" 0).core.result = Outcome.panicked :=
  imageExport_nil_created_panics envC9 "work" 0 mExp "9-1" [9] ⟨none, ["stale"], 3⟩
    ⟨"L1"⟩ [⟨"L2"⟩] [1] (by decide) rfl rfl rfl (by decide) rfl rfl rfl
    ⟨[1], by decide, by decide⟩
